import Mathlib

/-!
Shallow embedding of the sweep / digest / alignment core of `lockintools`
(`lockintools/lockin.py`).  Voltages and frequencies are modelled as
rationals; the NaN sentinel used for unfilled buffer slots is modelled by
`Option` (`none` = NaN).  Device interaction is modelled by a trace of the
commands issued, and exceptions by `Except`.
-/

namespace Lockintools

/-- A device command, as issued over the serial channel by `LockIn.cmd`.
Mirrors the command verbs that `LockIn.sweep` and the setters emit:
`HARM`, `SENS`, `SLVL`, `FREQ`, `REST`, `STRT`, `PAUS`, `SPTS?`, `TRCA?ch`. -/
inductive Cmd
  | harm (h : ℤ)
  | sens (s : ℤ)
  | slvl (a : ℚ)
  | freq (f : ℚ)
  | rest
  | strt
  | paus
  | spts
  | trca (ch : ℕ)
deriving DecidableEq, Repr

/-- `LockIn.set_harm` (lockin.py lines 136-142): validates the detection
harmonic and, when in range, issues the `HARM` command; otherwise raises
`ValueError`.  The returned list is the trace of commands issued. -/
def set_harm (harm : ℤ) : Except String (List Cmd) :=
  if 1 ≤ harm ∧ harm ≤ 19999 then .ok [Cmd.harm harm]
  else .error "harmonic must be between 1 and 19999"

/-- `LockIn.set_sens` (lockin.py lines 128-134): validates the sensitivity
index and, when in range, issues the `SENS` command; otherwise raises
`ValueError`. -/
def set_sens (sens : ℤ) : Except String (List Cmd) :=
  if 0 ≤ sens ∧ sens ≤ 26 then .ok [Cmd.sens sens]
  else .error "sensitivity setting must be between 0 (1 nV) and 26 (1 V)"

/-- `LockIn.set_ampl` (lockin.py lines 121-126): raises `ValueError` when the
requested amplitude exceeds 5 volts, otherwise issues the `SLVL` command. -/
def set_ampl (ampl : ℚ) : Except String (List Cmd) :=
  if ampl > 5 then .error "can not exceed amplitude of 5V"
  else .ok [Cmd.slvl ampl]

/-- One buffer slot: `none` models the NaN fill value of the pre-allocated
arrays `X`, `Y` in `LockIn.sweep` (lockin.py lines 204-205). -/
abbrev Slot := Option ℚ

/-- The pair of sample sequences returned for one sweep point by the two
`TRCA?` queries (lockin.py lines 233-239). -/
structure PointSample where
  x : List ℚ
  y : List ℚ
deriving DecidableEq, Repr

/-- The pre-filled (all-NaN) slot row `np.full(L_MAX, np.nan)` for one point. -/
def initRow (L : ℕ) : List Slot := List.replicate L none

/-- numpy slice assignment `buf[:vals.length] = vals`: overwrite the leading
slots with the sample values, keeping the tail of the buffer. -/
def writeFront (buf : List Slot) (vals : List ℚ) : List Slot :=
  vals.map some ++ buf.drop vals.length

/-- The per-point buffer write of `LockIn.sweep` (lockin.py lines 241-249):

  * try ` X[i, j][:len(x)] = x ` and ` Y[i, j][:len(x)] = y `; the slice
    assignments succeed exactly when `len(x) ≤ L_MAX` and `len(y) = len(x)`;
  * on `ValueError`, warn naming the point and assign the truncated arrays
    ` X[i, j] = x[:L_MAX] `, ` Y[i, j] = y[:L_MAX] `, which themselves succeed
    exactly when both truncations have length `L_MAX`;
  * an exception escaping the handler is modelled by `none`.

(numpy length-1 broadcasting is not modelled; every claim concerns
equal-length channel reads.)  The result carries the two written slot rows
and the optional `(frequency, amplitude)` warning. -/
def sweepPoint (L : ℕ) (f V : ℚ) (s : PointSample) :
    Option ((List Slot × List Slot) × Option (ℚ × ℚ)) :=
  if s.x.length ≤ L ∧ s.y.length = s.x.length then
    some ((writeFront (initRow L) s.x, writeFront (initRow L) s.y), none)
  else if L ≤ s.x.length ∧ L ≤ s.y.length then
    some (((s.x.take L).map some, (s.y.take L).map some), some (f, V))
  else
    none

/-- The commands issued for one point of the inner frequency loop
(lockin.py lines 220-234): `FREQ`, `REST`, `STRT`, `PAUS`, `SPTS?`,
`TRCA?1`, `TRCA?2`. -/
def pointCmds (f : ℚ) : List Cmd :=
  [Cmd.freq f, Cmd.rest, Cmd.strt, Cmd.paus, Cmd.spts, Cmd.trca 1, Cmd.trca 2]

/-- The inner frequency loop of `LockIn.sweep` (lockin.py lines 215-253) at a
fixed amplitude `V`; `devV j` is the sample pair the device returns for
frequency index `j`, and `j` threads the running index of `enumerate(freqs)`.
Returns the command trace together with either the written slot rows (one per
frequency, in order) and the overflow warnings, or the uncaught error. -/
def runFreqs (L : ℕ) (V : ℚ) (devV : ℕ → PointSample) :
    List ℚ → ℕ →
    List Cmd × Except String (List (List Slot × List Slot) × List (ℚ × ℚ))
  | [], _ => ([], .ok ([], []))
  | f :: fs, j =>
    match sweepPoint L f V (devV j) with
    | none => (pointCmds f, .error "could not broadcast input array")
    | some (bufs, w) =>
      let r := runFreqs L V devV fs (j + 1)
      (pointCmds f ++ r.1,
        match r.2 with
        | .error e => .error e
        | .ok (rows, ws) => .ok (bufs :: rows, w.toList ++ ws))

/-- The outer amplitude loop of `LockIn.sweep` (lockin.py lines 207-253);
`dev i j` is the device sample pair at amplitude index `i`, frequency index
`j`, and `i` threads the running index of `enumerate(ampls)`.  Each iteration
first runs `set_ampl` (whose validation precedes its `SLVL` command), then the
frequency loop. -/
def runAmpls (L : ℕ) (dev : ℕ → ℕ → PointSample) (freqs : List ℚ) :
    List ℚ → ℕ →
    List Cmd ×
      Except String (List (List (List Slot × List Slot)) × List (ℚ × ℚ))
  | [], _ => ([], .ok ([], []))
  | V :: Vs, i =>
    match set_ampl V with
    | .error e => ([], .error e)
    | .ok cs0 =>
      let rf := runFreqs L V (dev i) freqs 0
      match rf.2 with
      | .error e => (cs0 ++ rf.1, .error e)
      | .ok (rowBufs, ws) =>
        let ra := runAmpls L dev freqs Vs (i + 1)
        (cs0 ++ rf.1 ++ ra.1,
          match ra.2 with
          | .error e => .error e
          | .ok (rows, ws2) => .ok (rowBufs :: rows, ws ++ ws2))

/-- `LockIn.sweep` (lockin.py lines 169-256): configure harmonic and
sensitivity (each validating before issuing its command), then run the nested
amplitude × frequency loops.  The result is the full command trace paired
with either the written buffers (indexed `[amplitude][frequency]`) and the
list of overflow warnings, or the raised error. -/
def sweep (harm sens : ℤ) (freqs ampls : List ℚ) (dev : ℕ → ℕ → PointSample)
    (L : ℕ) :
    List Cmd ×
      Except String (List (List (List Slot × List Slot)) × List (ℚ × ℚ)) :=
  match set_harm harm with
  | .error e => ([], .error e)
  | .ok c1 =>
    match set_sens sens with
    | .error e => (c1, .error e)
    | .ok c2 =>
      let r := runAmpls L dev freqs ampls 0
      (c1 ++ c2 ++ r.1, r.2)

/-- The slot rows a point ends up with when its write does not escape the
handler: the normal front write for `len(x) ≤ L_MAX`, the truncated overwrite
otherwise. -/
def writeCell (L : ℕ) (s : PointSample) : List Slot × List Slot :=
  if s.x.length ≤ L then
    (writeFront (initRow L) s.x, writeFront (initRow L) s.y)
  else
    ((s.x.take L).map some, (s.y.take L).map some)

/-- The overflow warning a point emits: the `(frequency, amplitude)` pair
exactly when the returned sequence is longer than `L_MAX`. -/
def warnOf (L : ℕ) (f V : ℚ) (s : PointSample) : Option (ℚ × ℚ) :=
  if s.x.length ≤ L then none else some (f, V)

/-- Access a written buffer cell at (amplitude index, frequency index). -/
def cellAt (bufs : List (List (List Slot × List Slot))) (i j : ℕ) :
    List Slot × List Slot :=
  (bufs.getD i []).getD j ([], [])

/-- Closed form of the cells the frequency loop writes from index `j` on. -/
def cellRows (L : ℕ) (devV : ℕ → PointSample) :
    List ℚ → ℕ → List (List Slot × List Slot)
  | [], _ => []
  | _ :: fs, j => writeCell L (devV j) :: cellRows L devV fs (j + 1)

/-- Closed form of the warnings the frequency loop emits from index `j`
on. -/
def warnRows (L : ℕ) (V : ℚ) (devV : ℕ → PointSample) :
    List ℚ → ℕ → List (ℚ × ℚ)
  | [], _ => []
  | f :: fs, j => (warnOf L f V (devV j)).toList ++ warnRows L V devV fs (j + 1)

/-- Closed form of the buffer grid the amplitude loop writes from amplitude
index `i` on. -/
def gridRows (L : ℕ) (dev : ℕ → ℕ → PointSample) (freqs : List ℚ) :
    List ℚ → ℕ → List (List (List Slot × List Slot))
  | [], _ => []
  | _ :: Vs, i => cellRows L (dev i) freqs 0 :: gridRows L dev freqs Vs (i + 1)

/-- Closed form of the warnings the amplitude loop collects from amplitude
index `i` on. -/
def gridWarns (L : ℕ) (dev : ℕ → ℕ → PointSample) (freqs : List ℚ) :
    List ℚ → ℕ → List (ℚ × ℚ)
  | [], _ => []
  | V :: Vs, i => warnRows L V (dev i) freqs 0 ++ gridWarns L dev freqs Vs (i + 1)

/-- `_X_[~np.isnan(_X_)]` (lockin.py lines 310-311): the non-sentinel values
of a slot row. -/
def validVals (slots : List Slot) : List ℚ := slots.filterMap id

/-- `np.mean` on a 1-D array: the arithmetic mean, NaN (`none`) on an empty
array (numpy emits a RuntimeWarning there but does not raise). -/
def npMean (l : List ℚ) : Option ℚ :=
  if l.length = 0 then none else some (l.sum / l.length)

/-- `np.std` on a 1-D array computes `sqrt(mean((v - mean v)^2))`; the square
root of a rational is not rational, so the embedding carries the radicand
(the population variance).  Every claim about the dispersion tables concerns
their shape, their NaN cells or which digest they are sourced from, all of
which are invariant under the monotone square root. -/
def npVarOfStd (l : List ℚ) : Option ℚ :=
  if l.length = 0 then none
  else some (((l.map fun v => (v - l.sum / l.length) ^ 2).sum) / l.length)

/-- One digest cell: apply the reduction `red` to the non-sentinel values of
buffer cell `(i, j)` (amplitude index `i`, frequency index `j`). -/
def digestCell (red : List ℚ → Option ℚ) (buf : List (List (List Slot)))
    (i j : ℕ) : Option ℚ :=
  red (validVals ((buf.getD i []).getD j []))

/-- One digest table, already in the transposed `pd.DataFrame` orientation of
lockin.py lines 319-322: row index `j` runs over frequencies, column index
`i` over amplitudes. -/
def digestTable (red : List ℚ → Option ℚ) (buf : List (List (List Slot)))
    (n m : ℕ) : List (List (Option ℚ)) :=
  (List.range n).map fun j => (List.range m).map fun i => digestCell red buf i j

/-- `SweepData` (lockin.py lines 270-322): frequency and amplitude grids plus
the four digest tables, each indexed by frequency (rows) × amplitude
(columns).  The run label / harmonic / sensitivity / timestamp identifier
carries no digested data and is omitted. -/
structure SweepData where
  freqs : List ℚ
  Vs : List ℚ
  V_x : List (List (Option ℚ))
  V_y : List (List (Option ℚ))
  dV_x : List (List (Option ℚ))
  dV_y : List (List (Option ℚ))
deriving DecidableEq, Repr

/-- `SweepData.__init__` (lockin.py lines 283-322): reduce the raw buffers
`X`, `Y` (indexed `[amplitude][frequency][slot]`) cell by cell, dropping NaN
slots, taking `np.mean` / `np.std` per channel, and store the transposed
tables with `index=freqs, columns=Vs`. -/
def mkSweepData (X Y : List (List (List Slot))) (freqs Vs : List ℚ) :
    SweepData where
  freqs := freqs
  Vs := Vs
  V_x := digestTable npMean X freqs.length Vs.length
  V_y := digestTable npMean Y freqs.length Vs.length
  dV_x := digestTable npVarOfStd X freqs.length Vs.length
  dV_y := digestTable npVarOfStd Y freqs.length Vs.length

/-- `LockInData` (lockin.py lines 325-347), restricted to the three sweep
roles; the directory-management attributes touch only the file system. -/
structure LockInData where
  Vs_3w : Option SweepData
  Vs_1w : Option SweepData
  Vsh_1w : Option SweepData
deriving DecidableEq, Repr

/-- The attribute names a fresh `LockInData` instance answers `hasattr` for:
the instance attributes set in `__init__` (lockin.py lines 332-346) and the
class methods. -/
def lockInDataAttrNames : List String :=
  ["working_dir", "create_dir", "directory_created", "DIR",
   "Vs_3w", "Vs_1w", "Vsh_1w",
   "add_sweeps", "init_save", "save_all", "save_tc3omega"]

/-- A Python value passed as a keyword argument to `add_sweeps`: either a
`SweepData` instance or anything else. -/
inductive PyValue
  | sweepData (sd : SweepData)
  | nonSweepData (tag : String)
deriving DecidableEq, Repr

/-- The two `ValueError` cases of `LockInData.add_sweeps`. -/
inductive AddErr
  /-- ` keyword argument is not one of Vs_3w, Vs_1w, or Vsh_1w ` -/
  | unknownKeyword
  /-- ` keyword argument is not an instance of SweepData ` -/
  | notSweepData
deriving DecidableEq, Repr

/-- One `(key, value)` step of `LockInData.add_sweeps` (lockin.py lines
349-360): the guard is `hasattr(self, key)` — any existing attribute name
passes, not only the three role names the error message cites — then an
`isinstance(value, SweepData)` check; on success `setattr` binds the value to
the named attribute. -/
def add_sweep_pair (key : String) (v : PyValue) :
    Except AddErr (String × SweepData) :=
  if key ∈ lockInDataAttrNames then
    match v with
    | .sweepData sd => .ok (key, sd)
    | .nonSweepData _ => .error .notSweepData
  else
    .error .unknownKeyword

/-- `setattr(self, key, sweep_data)` restricted to the three role fields:
later assignments to the same role overwrite earlier ones. -/
def setRole (d : LockInData) (key : String) (sd : SweepData) : LockInData :=
  if key = "Vs_3w" then { d with Vs_3w := some sd }
  else if key = "Vs_1w" then { d with Vs_1w := some sd }
  else if key = "Vsh_1w" then { d with Vsh_1w := some sd }
  else d

/-- The three failure conditions of `LockInData.save_tc3omega`
(lockin.py lines 416-430). -/
inductive TcErr
  /-- ` no recorded data for attribute <role> ` (`ValueError`) -/
  | missingRole (role : String)
  /-- ` frequencies do not match across scans ` (`IndexError`) -/
  | freqMismatch
  /-- ` specified voltage not found in every scan ` (`ValueError`) -/
  | amplNotFound
deriving DecidableEq, Repr

/-- `df[ampl].values` on a digest table whose columns are the amplitude grid
`Vs`: the column of the table at the position of `ampl` in `Vs`. -/
def colByAmpl (Vs : List ℚ) (tbl : List (List (Option ℚ))) (ampl : ℚ) :
    List (Option ℚ) :=
  tbl.map fun row => row.getD (Vs.indexOf ampl) none

/-- The aligned mean table of `save_tc3omega` (lockin.py lines 432-460): one
row per shared frequency, columns `freq, Vs_3w, Vs_3w_o, Vs_1w, Vs_1w_o,
Vsh_1w, Vsh_1w_o`, the frequency column taken from the `Vs_1w` digest. -/
def tcVTable (s3 s1 sh : SweepData) (ampl : ℚ) : List (List (Option ℚ)) :=
  (List.range s1.freqs.length).map fun j =>
    [some (s1.freqs.getD j 0),
     (colByAmpl s3.Vs s3.V_x ampl).getD j none,
     (colByAmpl s3.Vs s3.V_y ampl).getD j none,
     (colByAmpl s1.Vs s1.V_x ampl).getD j none,
     (colByAmpl s1.Vs s1.V_y ampl).getD j none,
     (colByAmpl sh.Vs sh.V_x ampl).getD j none,
     (colByAmpl sh.Vs sh.V_y ampl).getD j none]

/-- The aligned dispersion (error) table of `save_tc3omega` (lockin.py lines
440-472): columns `freq, dVs_3w, dVs_3w_o, dVs_1w, dVs_1w_o, dVsh_1w,
dVsh_1w_o`.  Line 445 of the source reads `_dVs_1w_o = self.Vs_3w.dV_y[ampl]`
— the `dVs_1w_o` column is sourced from the `Vs_3w` digest — and the
embedding reproduces that faithfully. -/
def tcdVTable (s3 s1 sh : SweepData) (ampl : ℚ) : List (List (Option ℚ)) :=
  (List.range s1.freqs.length).map fun j =>
    [some (s1.freqs.getD j 0),
     (colByAmpl s3.Vs s3.dV_x ampl).getD j none,
     (colByAmpl s3.Vs s3.dV_y ampl).getD j none,
     (colByAmpl s1.Vs s1.dV_x ampl).getD j none,
     (colByAmpl s3.Vs s3.dV_y ampl).getD j none,
     (colByAmpl sh.Vs sh.dV_x ampl).getD j none,
     (colByAmpl sh.Vs sh.dV_y ampl).getD j none]

/-- `LockInData.save_tc3omega` (lockin.py lines 416-476): check the three
roles in order `Vs_3w, Vs_1w, Vsh_1w` (first missing one raises, naming it);
check the frequency axes pointwise equal; check the amplitude is a column of
every grid; then emit the aligned mean and dispersion tables. -/
def save_tc3omega (d : LockInData) (ampl : ℚ) :
    Except TcErr (List (List (Option ℚ)) × List (List (Option ℚ))) :=
  match d.Vs_3w with
  | none => .error (.missingRole "Vs_3w")
  | some s3 =>
    match d.Vs_1w with
    | none => .error (.missingRole "Vs_1w")
    | some s1 =>
      match d.Vsh_1w with
      | none => .error (.missingRole "Vsh_1w")
      | some sh =>
        if s1.freqs = s3.freqs ∧ s1.freqs = sh.freqs then
          if ampl ∈ s1.Vs ∧ ampl ∈ s3.Vs ∧ ampl ∈ sh.Vs then
            .ok (tcVTable s3 s1 sh ampl, tcdVTable s3 s1 sh ampl)
          else .error .amplNotFound
        else .error .freqMismatch

/-- `save_tc3omega` viewed as a state transformer on the container: the
source method never assigns to `Vs_3w`, `Vs_1w` or `Vsh_1w` (its writes touch
only directory bookkeeping and files), so the stored digests come back
unchanged alongside the call result. -/
def save_tc3omega_state (d : LockInData) (ampl : ℚ) :
    LockInData ×
      Except TcErr (List (List (Option ℚ)) × List (List (Option ℚ))) :=
  (d, save_tc3omega d ampl)

/-- Whether a sweep result is a success (no raised exception). -/
def isOkE {ε α : Type} (r : Except ε α) : Bool :=
  match r with
  | .ok _ => true
  | .error _ => false

/-- The buffer grid of a successful sweep result (empty on error). -/
def okBufs
    (r : List Cmd ×
      Except String (List (List (List Slot × List Slot)) × List (ℚ × ℚ))) :
    List (List (List Slot × List Slot)) :=
  match r.2 with
  | .ok (b, _) => b
  | .error _ => []

/-- The warning list of a successful sweep result (empty on error). -/
def okWarns
    (r : List Cmd ×
      Except String (List (List (List Slot × List Slot)) × List (ℚ × ℚ))) :
    List (ℚ × ℚ) :=
  match r.2 with
  | .ok (_, w) => w
  | .error _ => []

/-! Concrete instances used to evaluate the model on closed inputs. -/

/-- A small well-formed digest: one frequency (10 Hz), one amplitude (3 V). -/
def sdEx : SweepData :=
  ⟨[10], [3], [[some 1]], [[some 2]], [[some 5]], [[some 7]]⟩

/-- Concrete sample-3ω digest over frequency grid `[10, 100]`, amplitude grid
`[1, 3]`; all cell values distinct so column sourcing is observable. -/
def s3c : SweepData :=
  ⟨[10, 100], [1, 3],
   [[some 300, some 301], [some 302, some 303]],
   [[some 310, some 311], [some 312, some 313]],
   [[some 320, some 321], [some 322, some 323]],
   [[some 330, some 331], [some 332, some 333]]⟩

/-- Concrete sample-1ω digest on the same grids as `s3c`. -/
def s1c : SweepData :=
  ⟨[10, 100], [1, 3],
   [[some 400, some 401], [some 402, some 403]],
   [[some 410, some 411], [some 412, some 413]],
   [[some 420, some 421], [some 422, some 423]],
   [[some 430, some 431], [some 432, some 433]]⟩

/-- Concrete shunt-1ω digest on the same grids as `s3c`. -/
def shc : SweepData :=
  ⟨[10, 100], [1, 3],
   [[some 500, some 501], [some 502, some 503]],
   [[some 510, some 511], [some 512, some 513]],
   [[some 520, some 521], [some 522, some 523]],
   [[some 530, some 531], [some 532, some 533]]⟩

/-- A fully populated sweep set over the digests above. -/
def dFull : LockInData := ⟨some s3c, some s1c, some shc⟩

/-- Concrete device behaviour: the point at amplitude index 0, frequency
index 0 returns 3 samples per channel; every other point returns 1. -/
def devEx (i j : ℕ) : PointSample :=
  if i = 0 ∧ j = 0 then ⟨[1, 2, 3], [4, 5, 6]⟩ else ⟨[7], [8]⟩

/-! ## Theorems -/

/-- Indexing a table built by mapping over `List.range`. -/
lemma getD_range_map {α : Type} (f : ℕ → α) (n j : ℕ) (d : α) (h : j < n) :
    ((List.range n).map f).getD j d = f j := by
  rw [List.getD_eq_getElem _ _ (by simpa using h)]
  simp

/-- Length facts for one digest table. -/
lemma digestTable_length (red : List ℚ → Option ℚ)
    (buf : List (List (List Slot))) (n m : ℕ) :
    (digestTable red buf n m).length = n := by
  simp [digestTable]

/-- Row-length facts for one digest table. -/
lemma digestTable_getD_length (red : List ℚ → Option ℚ)
    (buf : List (List (List Slot))) (n m j : ℕ) (h : j < n) :
    ((digestTable red buf n m).getD j []).length = m := by
  rw [digestTable, getD_range_map _ _ _ _ h]
  simp

/-- Cell contents of one digest table. -/
lemma digestTable_getD_getD (red : List ℚ → Option ℚ)
    (buf : List (List (List Slot))) (n m i j : ℕ) (hj : j < n) (hi : i < m) :
    (((digestTable red buf n m).getD j []).getD i none) = digestCell red buf i j := by
  rw [digestTable, getD_range_map _ _ _ _ hj, getD_range_map _ _ _ _ hi]

/-- C10: `LockIn.set_ampl` rejects exactly the amplitudes strictly greater
than 5 V; every amplitude ≤ 5 V — zero and negative ones included — is
accepted and the `SLVL` device command is issued for it. -/
theorem set_ampl_threshold (a : ℚ) :
    (a ≤ 5 → set_ampl a = .ok [Cmd.slvl a]) ∧
    (5 < a → set_ampl a = .error "can not exceed amplitude of 5V") := by
  constructor
  · intro h
    rw [set_ampl, if_neg (not_lt.mpr h)]
  · intro h
    rw [set_ampl, if_pos h]

/-- Witness for C10: the threshold theorem evaluated at amplitudes 0, −2
and 6. -/
theorem set_ampl_threshold_witness :
    set_ampl 0 = .ok [Cmd.slvl 0] ∧
    set_ampl (-2) = .ok [Cmd.slvl (-2)] ∧
    set_ampl 6 = .error "can not exceed amplitude of 5V" :=
  ⟨(set_ampl_threshold 0).1 (by norm_num),
   (set_ampl_threshold (-2)).1 (by norm_num),
   (set_ampl_threshold 6).2 (by norm_num)⟩

/-- C9 (code evidence): `LockInData.add_sweeps` guards keyword arguments with
`hasattr`, so the existing non-role attribute name `DIR` is accepted with a
well-formed `SweepData` value and bound — the call does not fail, although
the error message of the reject branch (and the claim) admits only `Vs_3w`,
`Vs_1w`, `Vsh_1w`. -/
theorem add_sweeps_accepts_non_role_attr :
    add_sweep_pair "DIR" (.sweepData sdEx) = .ok ("DIR", sdEx) ∧
    "DIR" ∉ ["Vs_3w", "Vs_1w", "Vsh_1w"] ∧
    add_sweep_pair "nonsense" (.sweepData sdEx) = .error .unknownKeyword ∧
    add_sweep_pair "Vs_3w" (.nonSweepData "droid") = .error .notSweepData := by
  refine ⟨?_, by decide, ?_, ?_⟩ <;> rfl

/-- C8 (code evidence): in the dispersion table that `save_tc3omega` aligns,
the `dVs_1w_o` column (index 4) is sourced from the sample-3ω digest's
channel-Y dispersion table, not from the sample-1ω digest's: on `dFull` at
amplitude 3 its first cell carries the `s3c.dV_y` value 331, while the
`s1c.dV_y` value there is 431. -/
theorem save_tc3omega_dVs1wo_sourced_from_3w :
    save_tc3omega dFull 3 =
      .ok ([[some 10, some 301, some 311, some 401, some 411, some 501, some 511],
            [some 100, some 303, some 313, some 403, some 413, some 503, some 513]],
           [[some 10, some 321, some 331, some 421, some 331, some 521, some 531],
            [some 100, some 323, some 333, some 423, some 333, some 523, some 533]]) ∧
    (((tcdVTable s3c s1c shc 3).getD 0 []).getD 4 none =
      ((colByAmpl s3c.Vs s3c.dV_y 3).getD 0 none)) ∧
    ((colByAmpl s3c.Vs s3c.dV_y 3).getD 0 none = some 331) ∧
    ((colByAmpl s1c.Vs s1c.dV_y 3).getD 0 none = some 431) ∧
    some (331 : ℚ) ≠ some (431 : ℚ) := by
  refine ⟨?_, rfl, rfl, rfl, by decide⟩
  rfl

/-- C5: for every raw buffer pair and every pair of grids, each of the four
digest tables of the constructed `SweepData` has exactly one row per
frequency and one column per amplitude, with the row labels being the
frequency grid and the column labels the amplitude grid, both in original
order. -/
theorem digest_table_dims (X Y : List (List (List Slot))) (freqs Vs : List ℚ) :
    (mkSweepData X Y freqs Vs).freqs = freqs ∧
    (mkSweepData X Y freqs Vs).Vs = Vs ∧
    ((mkSweepData X Y freqs Vs).V_x.length = freqs.length ∧
      ∀ j, j < freqs.length →
        ((mkSweepData X Y freqs Vs).V_x.getD j []).length = Vs.length) ∧
    ((mkSweepData X Y freqs Vs).V_y.length = freqs.length ∧
      ∀ j, j < freqs.length →
        ((mkSweepData X Y freqs Vs).V_y.getD j []).length = Vs.length) ∧
    ((mkSweepData X Y freqs Vs).dV_x.length = freqs.length ∧
      ∀ j, j < freqs.length →
        ((mkSweepData X Y freqs Vs).dV_x.getD j []).length = Vs.length) ∧
    ((mkSweepData X Y freqs Vs).dV_y.length = freqs.length ∧
      ∀ j, j < freqs.length →
        ((mkSweepData X Y freqs Vs).dV_y.getD j []).length = Vs.length) :=
  ⟨rfl, rfl,
   ⟨digestTable_length _ _ _ _, fun _ hj => digestTable_getD_length _ _ _ _ _ hj⟩,
   ⟨digestTable_length _ _ _ _, fun _ hj => digestTable_getD_length _ _ _ _ _ hj⟩,
   ⟨digestTable_length _ _ _ _, fun _ hj => digestTable_getD_length _ _ _ _ _ hj⟩,
   ⟨digestTable_length _ _ _ _, fun _ hj => digestTable_getD_length _ _ _ _ _ hj⟩⟩

/-- Witness for C5: the dimension theorem evaluated on a concrete 1-amplitude
× 2-frequency buffer. -/
theorem digest_table_dims_witness :
    (mkSweepData [[[some 1], [some 2]]] [[[some 3], [some 4]]]
        [10, 100] [3]).V_x.length = [10, 100].length ∧
    (0 : ℕ) < [10, 100].length ∧
    ((mkSweepData [[[some 1], [some 2]]] [[[some 3], [some 4]]]
        [10, 100] [3]).V_x.getD 0 []).length = [3].length :=
  ⟨(digest_table_dims [[[some 1], [some 2]]] [[[some 3], [some 4]]]
      [10, 100] [3]).2.2.1.1,
   by decide,
   (digest_table_dims [[[some 1], [some 2]]] [[[some 3], [some 4]]]
      [10, 100] [3]).2.2.1.2 0 (by decide)⟩

/-- The non-sentinel values of an all-sentinel slot row form the empty
list. -/
lemma validVals_of_all_none {slots : List Slot} (h : ∀ s ∈ slots, s = none) :
    validVals slots = [] := by
  rw [validVals, List.filterMap_eq_nil_iff]
  simpa using h

/-- C2: in a constructed digest, the mean cell at (frequency row `j`,
amplitude column `i`) of each channel equals the arithmetic mean of that
channel's non-sentinel slot values at the corresponding buffer cell, each
channel computed independently from its own buffer; a cell whose slots are
all sentinel digests to `none` (NaN).  `mkSweepData` is a total function, so
construction completes on every input, the all-sentinel case included. -/
theorem digest_mean_cells (X Y : List (List (List Slot))) (freqs Vs : List ℚ)
    (i j : ℕ) (hi : i < Vs.length) (hj : j < freqs.length) :
    (((mkSweepData X Y freqs Vs).V_x.getD j []).getD i none =
      (if (validVals ((X.getD i []).getD j [])).length = 0 then none
       else some ((validVals ((X.getD i []).getD j [])).sum /
         ((validVals ((X.getD i []).getD j [])).length : ℚ)))) ∧
    (((mkSweepData X Y freqs Vs).V_y.getD j []).getD i none =
      (if (validVals ((Y.getD i []).getD j [])).length = 0 then none
       else some ((validVals ((Y.getD i []).getD j [])).sum /
         ((validVals ((Y.getD i []).getD j [])).length : ℚ)))) ∧
    ((∀ s ∈ (X.getD i []).getD j [], s = none) →
      ((mkSweepData X Y freqs Vs).V_x.getD j []).getD i none = none) ∧
    ((∀ s ∈ (Y.getD i []).getD j [], s = none) →
      ((mkSweepData X Y freqs Vs).V_y.getD j []).getD i none = none) := by
  have hx : ((mkSweepData X Y freqs Vs).V_x.getD j []).getD i none =
      digestCell npMean X i j :=
    digestTable_getD_getD _ _ _ _ _ _ hj hi
  have hy : ((mkSweepData X Y freqs Vs).V_y.getD j []).getD i none =
      digestCell npMean Y i j :=
    digestTable_getD_getD _ _ _ _ _ _ hj hi
  refine ⟨?_, ?_, ?_, ?_⟩
  · rw [hx]; rfl
  · rw [hy]; rfl
  · intro hall
    rw [hx, digestCell, validVals_of_all_none hall]
    rfl
  · intro hall
    rw [hy, digestCell, validVals_of_all_none hall]
    rfl

/-- Witness for C2: the mean-cell theorem evaluated on a concrete buffer pair
holding samples `[1, 3]` / `[2, 4]` at the single point, and on an
all-sentinel cell for the NaN case. -/
theorem digest_mean_cells_witness :
    (0 : ℕ) < ([3] : List ℚ).length ∧ (0 : ℕ) < ([10] : List ℚ).length ∧
    (((mkSweepData [[[some 1, some 3, none]]] [[[none, none, none]]]
        [10] [3]).V_x.getD 0 []).getD 0 none = some 2) ∧
    (((mkSweepData [[[some 1, some 3, none]]] [[[none, none, none]]]
        [10] [3]).V_y.getD 0 []).getD 0 none = none) := by
  have h := digest_mean_cells [[[some 1, some 3, none]]] [[[none, none, none]]]
    [10] [3] 0 0 (by decide) (by decide)
  refine ⟨by decide, by decide, ?_, ?_⟩
  · rw [h.1, show validVals (([[[some 1, some 3, none]]].getD 0 []).getD 0 [])
        = [1, 3] from rfl]
    norm_num
  · exact h.2.2.2 (by decide)

/-- C3: the alignment operation fails, producing no output table, in each of
the three precondition-violation cases: a missing role (naming the first
absent role in the checking order `Vs_3w, Vs_1w, Vsh_1w`), a pointwise
frequency-axis mismatch, and an amplitude absent from at least one grid; and
viewed as a state transformer it returns the stored digests unchanged, so the
call may be retried. -/
theorem save_tc3omega_failure_paths (d : LockInData) (ampl : ℚ) :
    (d.Vs_3w = none → save_tc3omega d ampl = .error (.missingRole "Vs_3w")) ∧
    (∀ s3, d.Vs_3w = some s3 → d.Vs_1w = none →
      save_tc3omega d ampl = .error (.missingRole "Vs_1w")) ∧
    (∀ s3 s1, d.Vs_3w = some s3 → d.Vs_1w = some s1 → d.Vsh_1w = none →
      save_tc3omega d ampl = .error (.missingRole "Vsh_1w")) ∧
    (∀ s3 s1 sh, d.Vs_3w = some s3 → d.Vs_1w = some s1 → d.Vsh_1w = some sh →
      (∃ k, k < s1.freqs.length ∧
        ¬(s1.freqs.getD k 0 = s3.freqs.getD k 0 ∧
          s1.freqs.getD k 0 = sh.freqs.getD k 0)) →
      save_tc3omega d ampl = .error .freqMismatch) ∧
    (∀ s3 s1 sh, d.Vs_3w = some s3 → d.Vs_1w = some s1 → d.Vsh_1w = some sh →
      s1.freqs = s3.freqs → s1.freqs = sh.freqs →
      (ampl ∉ s1.Vs ∨ ampl ∉ s3.Vs ∨ ampl ∉ sh.Vs) →
      save_tc3omega d ampl = .error .amplNotFound) ∧
    (save_tc3omega_state d ampl).1 = d := by
  obtain ⟨o3, o1, osh⟩ := d
  refine ⟨?_, ?_, ?_, ?_, ?_, rfl⟩
  · rintro rfl
    rfl
  · rintro s3 rfl rfl
    rfl
  · rintro s3 s1 rfl rfl rfl
    rfl
  · rintro s3 s1 sh rfl rfl rfl ⟨k, hk, hne⟩
    have hmm : ¬(s1.freqs = s3.freqs ∧ s1.freqs = sh.freqs) := by
      rintro ⟨e1, e2⟩
      exact hne ⟨by rw [e1], by rw [e2]⟩
    show (if s1.freqs = s3.freqs ∧ s1.freqs = sh.freqs then _ else _) = _
    rw [if_neg hmm]
  · rintro s3 s1 sh rfl rfl rfl e1 e2 hnot
    have hmm : ¬(ampl ∈ s1.Vs ∧ ampl ∈ s3.Vs ∧ ampl ∈ sh.Vs) := by
      rintro ⟨m1, m2, m3⟩
      rcases hnot with h | h | h
      · exact h m1
      · exact h m2
      · exact h m3
    show (if s1.freqs = s3.freqs ∧ s1.freqs = sh.freqs then _ else _) = _
    rw [if_pos ⟨e1, e2⟩, if_neg hmm]

/-- Witness for C3: each of the three failure paths evaluated on concrete
sweep sets that are otherwise valid. -/
theorem save_tc3omega_failure_paths_witness :
    save_tc3omega ⟨some s3c, none, some shc⟩ 3 =
      .error (.missingRole "Vs_1w") ∧
    save_tc3omega ⟨some s3c, some { s1c with freqs := [10, 101] }, some shc⟩ 3 =
      .error .freqMismatch ∧
    save_tc3omega dFull 7 = .error .amplNotFound ∧
    (save_tc3omega_state ⟨some s3c, none, some shc⟩ 3).1 =
      ⟨some s3c, none, some shc⟩ :=
  ⟨(save_tc3omega_failure_paths ⟨some s3c, none, some shc⟩ 3).2.1 s3c rfl rfl,
   (save_tc3omega_failure_paths _ 3).2.2.2.1 s3c { s1c with freqs := [10, 101] }
     shc rfl rfl rfl ⟨1, by decide, by decide⟩,
   (save_tc3omega_failure_paths dFull 7).2.2.2.2.1 s3c s1c shc rfl rfl rfl rfl
     rfl (Or.inl (by decide)),
   (save_tc3omega_failure_paths ⟨some s3c, none, some shc⟩ 3).2.2.2.2.2⟩

/-- Reading the `j`-th entry of an amplitude column extracted from a digest
table. -/
lemma colByAmpl_getD (Vs : List ℚ) (tbl : List (List (Option ℚ))) (a : ℚ)
    (j : ℕ) :
    (colByAmpl Vs tbl a).getD j none =
      (tbl.getD j []).getD (Vs.indexOf a) none := by
  simpa [colByAmpl] using
    List.getD_map (l := tbl) (d := []) (n := j)
      (fun row => row.getD (Vs.indexOf a) none)

/-- C4: when all three roles are populated, the frequency axes agree
pointwise and the amplitude is a column of all three grids, alignment
succeeds and the mean table has exactly one row per shared frequency, in the
frequency axis order, each row being the 7-tuple
`[freq, Vs_3w, Vs_3w_o, Vs_1w, Vs_1w_o, Vsh_1w, Vsh_1w_o]` drawn from the
respective digest's mean tables at that amplitude's column. -/
theorem save_tc3omega_success_shape (d : LockInData) (ampl : ℚ)
    (s3 s1 sh : SweepData)
    (h3 : d.Vs_3w = some s3) (h1 : d.Vs_1w = some s1)
    (hsh : d.Vsh_1w = some sh)
    (e1 : s1.freqs = s3.freqs) (e2 : s1.freqs = sh.freqs)
    (m1 : ampl ∈ s1.Vs) (m2 : ampl ∈ s3.Vs) (m3 : ampl ∈ sh.Vs) :
    save_tc3omega d ampl =
      .ok (tcVTable s3 s1 sh ampl, tcdVTable s3 s1 sh ampl) ∧
    (tcVTable s3 s1 sh ampl).length = s1.freqs.length ∧
    ∀ j, j < s1.freqs.length →
      (tcVTable s3 s1 sh ampl).getD j [] =
        [some (s1.freqs.getD j 0),
         (s3.V_x.getD j []).getD (s3.Vs.indexOf ampl) none,
         (s3.V_y.getD j []).getD (s3.Vs.indexOf ampl) none,
         (s1.V_x.getD j []).getD (s1.Vs.indexOf ampl) none,
         (s1.V_y.getD j []).getD (s1.Vs.indexOf ampl) none,
         (sh.V_x.getD j []).getD (sh.Vs.indexOf ampl) none,
         (sh.V_y.getD j []).getD (sh.Vs.indexOf ampl) none] ∧
      ((tcVTable s3 s1 sh ampl).getD j []).length = 7 := by
  obtain ⟨o3, o1, osh⟩ := d
  cases h3
  cases h1
  cases hsh
  refine ⟨?_, by simp [tcVTable], ?_⟩
  · show (if s1.freqs = s3.freqs ∧ s1.freqs = sh.freqs then _ else _) = _
    rw [if_pos ⟨e1, e2⟩, if_pos ⟨m1, m2, m3⟩]
  · intro j hj
    rw [tcVTable, getD_range_map _ _ _ _ hj]
    simp only [colByAmpl_getD]
    exact ⟨trivial, rfl⟩

/-- Witness for C4: the success-shape theorem evaluated on the concrete
two-frequency sweep set `dFull` at amplitude 3. -/
theorem save_tc3omega_success_shape_witness :
    save_tc3omega dFull 3 =
      .ok (tcVTable s3c s1c shc 3, tcdVTable s3c s1c shc 3) ∧
    (tcVTable s3c s1c shc 3).length = s1c.freqs.length ∧
    (0 : ℕ) < s1c.freqs.length ∧
    ((tcVTable s3c s1c shc 3).getD 0 []).length = 7 :=
  have h := save_tc3omega_success_shape dFull 3 s3c s1c shc rfl rfl rfl rfl rfl
    (by decide) (by decide) (by decide)
  ⟨h.1, h.2.1, by decide, (h.2.2 0 (by decide)).2⟩

/-- When the two channels return sequences of equal length, the per-point
buffer write never escapes the handler: it produces the normal front write
below the limit and the truncating overwrite with a warning above it. -/
lemma sweepPoint_eq (L : ℕ) (f V : ℚ) (s : PointSample)
    (h : s.y.length = s.x.length) :
    sweepPoint L f V s = some (writeCell L s, warnOf L f V s) := by
  by_cases hx : s.x.length ≤ L
  · rw [sweepPoint, if_pos ⟨hx, h⟩, writeCell, if_pos hx, warnOf, if_pos hx]
  · rw [sweepPoint, if_neg fun hc => hx hc.1,
      if_pos ⟨le_of_not_le hx, h ▸ le_of_not_le hx⟩,
      writeCell, if_neg hx, warnOf, if_neg hx]

/-- Closed form of the inner frequency loop when every point returns
equal-length channel sequences: it succeeds, writing each point's cell from
its own sample and collecting exactly the overflow warnings. -/
lemma runFreqs_ok (L : ℕ) (V : ℚ) (devV : ℕ → PointSample) (fs : List ℚ)
    (j : ℕ) (h : ∀ k, (devV k).y.length = (devV k).x.length) :
    (runFreqs L V devV fs j).2 =
      .ok (cellRows L devV fs j, warnRows L V devV fs j) := by
  induction fs generalizing j with
  | nil => rfl
  | cons f fs ih =>
    rw [runFreqs, sweepPoint_eq _ _ _ _ (h j)]
    show (match (runFreqs L V devV fs (j + 1)).2 with
      | .error e => Except.error e
      | .ok (rows, ws) =>
          Except.ok (writeCell L (devV j) :: rows,
            (warnOf L f V (devV j)).toList ++ ws)) = _
    rw [ih (j + 1)]
    rfl

/-- The inner frequency loop issues only per-point capture commands, never a
`SLVL` amplitude command. -/
lemma runFreqs_no_slvl (L : ℕ) (V a : ℚ) (devV : ℕ → PointSample)
    (fs : List ℚ) (j : ℕ) :
    Cmd.slvl a ∉ (runFreqs L V devV fs j).1 := by
  induction fs generalizing j with
  | nil => simp [runFreqs]
  | cons f fs ih =>
    rw [runFreqs]
    cases hp : sweepPoint L f V (devV j) with
    | none => simp [pointCmds]
    | some pr =>
      obtain ⟨bufs, w⟩ := pr
      simp only [List.mem_append, not_or]
      exact ⟨by simp [pointCmds], ih (j + 1)⟩

/-- Closed form of the outer amplitude loop when every amplitude is within
the 5 V bound and every point returns equal-length channel sequences. -/
lemma runAmpls_ok (L : ℕ) (dev : ℕ → ℕ → PointSample) (freqs : List ℚ)
    (hdev : ∀ a b, (dev a b).y.length = (dev a b).x.length) :
    ∀ (Vs : List ℚ) (i : ℕ), (∀ V ∈ Vs, V ≤ 5) →
      (runAmpls L dev freqs Vs i).2 =
        .ok (gridRows L dev freqs Vs i, gridWarns L dev freqs Vs i) := by
  intro Vs
  induction Vs with
  | nil =>
    intro i _
    rfl
  | cons V Vs ih =>
    intro i hV
    have hA : set_ampl V = .ok [Cmd.slvl V] := by
      rw [set_ampl, if_neg (not_lt.mpr (hV V (List.mem_cons_self V Vs)))]
    simp only [runAmpls, hA, runFreqs_ok L V (dev i) freqs 0 fun k => hdev i k,
      ih (i + 1) fun a ha => hV a (List.mem_cons_of_mem _ ha)]
    rfl

/-- `cellRows` has one entry per frequency. -/
lemma cellRows_length (L : ℕ) (devV : ℕ → PointSample) (fs : List ℚ) :
    ∀ j, (cellRows L devV fs j).length = fs.length := by
  induction fs with
  | nil => intro j; rfl
  | cons f fs ih =>
    intro j
    simp [cellRows, ih (j + 1)]

/-- The `t`-th entry of `cellRows` from `j` on is the write of point
`j + t`. -/
lemma cellRows_getD (L : ℕ) (devV : ℕ → PointSample) (fs : List ℚ) :
    ∀ j t, t < fs.length →
      (cellRows L devV fs j).getD t ([], []) = writeCell L (devV (j + t)) := by
  induction fs with
  | nil =>
    intro j t h
    simp at h
  | cons f fs ih =>
    intro j t h
    cases t with
    | zero => simp [cellRows]
    | succ t =>
      rw [cellRows, List.getD_cons_succ, ih (j + 1) t (Nat.lt_of_succ_lt_succ h),
        show j + 1 + t = j + (t + 1) from by omega]

/-- A warning produced at frequency index `t` is among the warnings of the
frequency loop. -/
lemma warnRows_mem (L : ℕ) (V : ℚ) (devV : ℕ → PointSample) (fs : List ℚ) :
    ∀ j t (w : ℚ × ℚ), t < fs.length →
      warnOf L (fs.getD t 0) V (devV (j + t)) = some w →
      w ∈ warnRows L V devV fs j := by
  induction fs with
  | nil =>
    intro j t w h
    simp at h
  | cons f fs ih =>
    intro j t w h hw
    rw [warnRows]
    cases t with
    | zero =>
      apply List.mem_append_left
      rw [List.getD_cons_zero] at hw
      simp only [Nat.add_zero] at hw
      simp [hw]
    | succ t =>
      apply List.mem_append_right
      apply ih (j + 1) t w (Nat.lt_of_succ_lt_succ h)
      have harith : j + 1 + t = j + (t + 1) := by omega
      rw [harith]
      simpa using hw

/-- `gridRows` has one row of cells per amplitude. -/
lemma gridRows_length (L : ℕ) (dev : ℕ → ℕ → PointSample) (freqs : List ℚ)
    (Vs : List ℚ) : ∀ i, (gridRows L dev freqs Vs i).length = Vs.length := by
  induction Vs with
  | nil => intro i; rfl
  | cons V Vs ih =>
    intro i
    simp [gridRows, ih (i + 1)]

/-- The `t`-th row of `gridRows` from `i` on is the frequency-loop output of
amplitude `i + t`. -/
lemma gridRows_getD (L : ℕ) (dev : ℕ → ℕ → PointSample) (freqs : List ℚ)
    (Vs : List ℚ) :
    ∀ i t, t < Vs.length →
      (gridRows L dev freqs Vs i).getD t [] = cellRows L (dev (i + t)) freqs 0 := by
  induction Vs with
  | nil =>
    intro i t h
    simp at h
  | cons V Vs ih =>
    intro i t h
    cases t with
    | zero => simp [gridRows]
    | succ t =>
      rw [gridRows, List.getD_cons_succ, ih (i + 1) t (Nat.lt_of_succ_lt_succ h),
        show i + 1 + t = i + (t + 1) from by omega]

/-- A warning of the frequency loop at amplitude index `t` is among the
warnings of the whole sweep. -/
lemma gridWarns_mem (L : ℕ) (dev : ℕ → ℕ → PointSample) (freqs : List ℚ)
    (Vs : List ℚ) :
    ∀ i t (w : ℚ × ℚ), t < Vs.length →
      w ∈ warnRows L (Vs.getD t 0) (dev (i + t)) freqs 0 →
      w ∈ gridWarns L dev freqs Vs i := by
  induction Vs with
  | nil =>
    intro i t w h
    simp at h
  | cons V Vs ih =>
    intro i t w h hw
    rw [gridWarns]
    cases t with
    | zero =>
      apply List.mem_append_left
      rw [List.getD_cons_zero] at hw
      simpa using hw
    | succ t =>
      apply List.mem_append_right
      apply ih (i + 1) t w (Nat.lt_of_succ_lt_succ h)
      have harith : i + 1 + t = i + (t + 1) := by omega
      rw [harith]
      simpa using hw

/-- With a valid configuration and equal-length channel reads, `sweep` runs
to completion and returns the closed-form buffers and warnings. -/
lemma sweep_ok (harm sens : ℤ) (freqs ampls : List ℚ)
    (dev : ℕ → ℕ → PointSample) (L : ℕ)
    (hh : 1 ≤ harm ∧ harm ≤ 19999) (hs : 0 ≤ sens ∧ sens ≤ 26)
    (hV : ∀ V ∈ ampls, V ≤ 5)
    (hdev : ∀ a b, (dev a b).y.length = (dev a b).x.length) :
    (sweep harm sens freqs ampls dev L).2 =
      .ok (gridRows L dev freqs ampls 0, gridWarns L dev freqs ampls 0) := by
  have h1 : set_harm harm = .ok [Cmd.harm harm] := by rw [set_harm, if_pos hh]
  have h2 : set_sens sens = .ok [Cmd.sens sens] := by rw [set_sens, if_pos hs]
  simp only [sweep, h1, h2]
  exact runAmpls_ok L dev freqs hdev ampls 0 hV

/-- A buffer cell of a completed sweep is exactly the write of its own
point. -/
lemma gridRows_cellAt (L : ℕ) (dev : ℕ → ℕ → PointSample)
    (freqs Vs : List ℚ) (i j : ℕ) (hi : i < Vs.length) (hj : j < freqs.length) :
    cellAt (gridRows L dev freqs Vs 0) i j = writeCell L (dev i j) := by
  rw [cellAt, gridRows_getD L dev freqs Vs 0 i hi,
    cellRows_getD L (dev (0 + i)) freqs 0 j hj]
  simp

/-- C1: a sweep in which one point returns more than `L_MAX` samples per
channel recovers rather than aborts: the run completes over the whole grid
with a success result, the overflowing point's two channel rows are exactly
the first `L_MAX` sample values (all `L_MAX` slots overwritten, no sentinel
left), a warning carrying exactly that point's frequency and amplitude is
recorded, and every other in-range point holds precisely the normal write of
its own sample. -/
theorem sweep_overflow_truncates_and_warns (harm sens : ℤ)
    (freqs ampls : List ℚ) (dev : ℕ → ℕ → PointSample) (L i0 j0 : ℕ)
    (hh : 1 ≤ harm ∧ harm ≤ 19999) (hs : 0 ≤ sens ∧ sens ≤ 26)
    (hV : ∀ V ∈ ampls, V ≤ 5)
    (hdev : ∀ a b, (dev a b).y.length = (dev a b).x.length)
    (hi0 : i0 < ampls.length) (hj0 : j0 < freqs.length)
    (hover : L < (dev i0 j0).x.length) :
    isOkE (sweep harm sens freqs ampls dev L).2 = true ∧
    (okBufs (sweep harm sens freqs ampls dev L)).length = ampls.length ∧
    (∀ i, i < ampls.length →
      ((okBufs (sweep harm sens freqs ampls dev L)).getD i []).length =
        freqs.length) ∧
    cellAt (okBufs (sweep harm sens freqs ampls dev L)) i0 j0 =
      (((dev i0 j0).x.take L).map some, ((dev i0 j0).y.take L).map some) ∧
    (cellAt (okBufs (sweep harm sens freqs ampls dev L)) i0 j0).1.length = L ∧
    (cellAt (okBufs (sweep harm sens freqs ampls dev L)) i0 j0).2.length = L ∧
    (cellAt (okBufs (sweep harm sens freqs ampls dev L)) i0 j0).1.all
      (fun o => o.isSome) = true ∧
    (cellAt (okBufs (sweep harm sens freqs ampls dev L)) i0 j0).2.all
      (fun o => o.isSome) = true ∧
    (freqs.getD j0 0, ampls.getD i0 0) ∈
      okWarns (sweep harm sens freqs ampls dev L) ∧
    (∀ i j, i < ampls.length → j < freqs.length → (i, j) ≠ (i0, j0) →
      (dev i j).x.length ≤ L →
      cellAt (okBufs (sweep harm sens freqs ampls dev L)) i j =
        (writeFront (initRow L) (dev i j).x,
         writeFront (initRow L) (dev i j).y)) := by
  have hres := sweep_ok harm sens freqs ampls dev L hh hs hV hdev
  have hB : okBufs (sweep harm sens freqs ampls dev L) =
      gridRows L dev freqs ampls 0 := by
    unfold okBufs
    rw [hres]
  have hW : okWarns (sweep harm sens freqs ampls dev L) =
      gridWarns L dev freqs ampls 0 := by
    unfold okWarns
    rw [hres]
  have hcell : cellAt (gridRows L dev freqs ampls 0) i0 j0 =
      (((dev i0 j0).x.take L).map some, ((dev i0 j0).y.take L).map some) := by
    rw [gridRows_cellAt L dev freqs ampls i0 j0 hi0 hj0, writeCell,
      if_neg (not_le.mpr hover)]
  have hlx : (((dev i0 j0).x.take L).map some).length = L := by
    rw [List.length_map, List.length_take]
    exact Nat.min_eq_left (le_of_lt hover)
  have hly : (((dev i0 j0).y.take L).map some).length = L := by
    rw [List.length_map, List.length_take]
    exact Nat.min_eq_left (by rw [hdev i0 j0]; exact le_of_lt hover)
  have hallsome : ∀ l : List ℚ, (l.map some).all (fun o => o.isSome) = true := by
    intro l
    rw [List.all_eq_true]
    intro o ho
    obtain ⟨a, _, rfl⟩ := List.mem_map.mp ho
    rfl
  have hwarnOf : warnOf L (freqs.getD j0 0) (ampls.getD i0 0)
      (dev (0 + i0) (0 + j0)) = some (freqs.getD j0 0, ampls.getD i0 0) := by
    simp only [Nat.zero_add]
    rw [warnOf, if_neg (not_le.mpr hover)]
  refine ⟨by unfold isOkE; rw [hres], ?_, ?_, ?_, ?_, ?_, ?_, ?_, ?_, ?_⟩
  · rw [hB, gridRows_length]
  · intro i hi
    rw [hB, gridRows_getD L dev freqs ampls 0 i hi, cellRows_length]
  · rw [hB, hcell]
  · rw [hB, hcell]
    exact hlx
  · rw [hB, hcell]
    exact hly
  · rw [hB, hcell]
    exact hallsome _
  · rw [hB, hcell]
    exact hallsome _
  · rw [hW]
    exact gridWarns_mem L dev freqs ampls 0 i0 _ hi0
      (warnRows_mem L (ampls.getD i0 0) (dev (0 + i0)) freqs 0 j0 _ hj0 hwarnOf)
  · intro i j hi hj _ hle
    rw [hB, gridRows_cellAt L dev freqs ampls i j hi hj, writeCell, if_pos hle]

/-- Witness for C1: the overflow-recovery theorem evaluated on a concrete
sweep with grids `[10, 100]` × `[1]`, slot limit 2, where the device returns
3 samples at point (0, 0) and 1 sample elsewhere; the per-point conclusions
are instantiated at the overflowing point (0, 0) and the normal point
(0, 1). -/
theorem sweep_overflow_truncates_and_warns_witness :
    isOkE (sweep 1 5 [10, 100] [1] devEx 2).2 = true ∧
    (okBufs (sweep 1 5 [10, 100] [1] devEx 2)).length = 1 ∧
    cellAt (okBufs (sweep 1 5 [10, 100] [1] devEx 2)) 0 0 =
      (((devEx 0 0).x.take 2).map some, ((devEx 0 0).y.take 2).map some) ∧
    (cellAt (okBufs (sweep 1 5 [10, 100] [1] devEx 2)) 0 0).1.length = 2 ∧
    (cellAt (okBufs (sweep 1 5 [10, 100] [1] devEx 2)) 0 0).1.all
      (fun o => o.isSome) = true ∧
    (((10 : ℚ), (1 : ℚ)) ∈ okWarns (sweep 1 5 [10, 100] [1] devEx 2)) ∧
    cellAt (okBufs (sweep 1 5 [10, 100] [1] devEx 2)) 0 1 =
      (writeFront (initRow 2) (devEx 0 1).x,
       writeFront (initRow 2) (devEx 0 1).y) := by
  have hdev : ∀ a b : ℕ, (devEx a b).y.length = (devEx a b).x.length := by
    intro a b
    rw [devEx]
    split <;> rfl
  have h := sweep_overflow_truncates_and_warns 1 5 [10, 100] [1] devEx 2 0 0
    (by decide) (by decide) (by decide) hdev (by decide) (by decide) (by decide)
  exact ⟨h.1, h.2.1,
    h.2.2.2.1, h.2.2.2.2.1, h.2.2.2.2.2.2.1,
    h.2.2.2.2.2.2.2.2.1,
    h.2.2.2.2.2.2.2.2.2 0 1 (by decide) (by decide) (by decide) (by decide)⟩

/-- C6: for a point whose channels return equally many (at most `L_MAX`)
samples, the buffer write succeeds without a warning and fills exactly the
same number of non-sentinel slots in the channel-X row as in the channel-Y
row. -/
theorem point_fill_counts_equal (L : ℕ) (f V : ℚ) (s : PointSample)
    (hlen : s.y.length = s.x.length) (hle : s.x.length ≤ L) :
    sweepPoint L f V s =
      some ((writeFront (initRow L) s.x, writeFront (initRow L) s.y), none) ∧
    (writeFront (initRow L) s.x).countP (fun o => o.isSome) = s.x.length ∧
    (writeFront (initRow L) s.y).countP (fun o => o.isSome) = s.y.length ∧
    (writeFront (initRow L) s.x).countP (fun o => o.isSome) =
      (writeFront (initRow L) s.y).countP (fun o => o.isSome) := by
  have hcount : ∀ l : List ℚ,
      (writeFront (initRow L) l).countP (fun o => o.isSome) = l.length := by
    intro l
    rw [writeFront, initRow, List.drop_replicate]
    simp [Function.comp, List.countP_replicate]
  refine ⟨?_, hcount s.x, hcount s.y, ?_⟩
  · rw [sweepPoint, if_pos ⟨hle, hlen⟩]
  · rw [hcount s.x, hcount s.y, hlen]

/-- Witness for C6: the equal-fill theorem evaluated on a point returning 2
samples per channel with slot limit 3. -/
theorem point_fill_counts_equal_witness :
    sweepPoint 3 10 1 ⟨[1, 2], [5, 6]⟩ =
      some ((writeFront (initRow 3) [1, 2], writeFront (initRow 3) [5, 6]),
        none) ∧
    (writeFront (initRow 3) [1, 2]).countP (fun o => o.isSome) = 2 ∧
    (writeFront (initRow 3) [5, 6]).countP (fun o => o.isSome) = 2 ∧
    (writeFront (initRow 3) [1, 2]).countP (fun o => o.isSome) =
      (writeFront (initRow 3) [5, 6]).countP (fun o => o.isSome) :=
  point_fill_counts_equal 3 10 1 ⟨[1, 2], [5, 6]⟩ rfl (by decide)

/-- C7 (counterexample): with a valid harmonic 1 and an out-of-range
sensitivity 27, the sweep call fails — but only after the `HARM` device
command has been issued, so the failure does not occur before any device
command and partial configuration has been performed, contrary to the
claim. -/
theorem sweep_partial_config_counterexample :
    (sweep 1 27 [10] [1] devEx 50).2 =
      .error "sensitivity setting must be between 0 (1 nV) and 26 (1 V)" ∧
    (sweep 1 27 [10] [1] devEx 50).1 = [Cmd.harm 1] ∧
    (sweep 1 27 [10] [1] devEx 50).1 ≠ [] := by
  refine ⟨rfl, rfl, ?_⟩
  rw [show (sweep 1 27 [10] [1] devEx 50).1 = [Cmd.harm 1] from rfl]
  exact List.cons_ne_nil _ _

/-- Reaching an over-limit amplitude makes the amplitude loop raise before
issuing that amplitude's `SLVL` command: the run fails and no `SLVL` command
carrying a value above 5 V is ever in the trace. -/
lemma runAmpls_bad_ampl (L : ℕ) (dev : ℕ → ℕ → PointSample) (freqs : List ℚ)
    (hdev : ∀ a b, (dev a b).y.length = (dev a b).x.length)
    (V : ℚ) (hV : 5 < V) (rest : List ℚ) :
    ∀ (good : List ℚ) (i : ℕ), (∀ a ∈ good, a ≤ 5) →
      (runAmpls L dev freqs (good ++ V :: rest) i).2 =
        .error "can not exceed amplitude of 5V" ∧
      ∀ a, Cmd.slvl a ∈ (runAmpls L dev freqs (good ++ V :: rest) i).1 →
        a ≤ 5 := by
  intro good
  induction good with
  | nil =>
    intro i _
    have hA : set_ampl V = .error "can not exceed amplitude of 5V" := by
      rw [set_ampl, if_pos hV]
    constructor
    · show (runAmpls L dev freqs (V :: rest) i).2 = _
      simp only [runAmpls, hA]
    · intro a ha
      rw [show ([] : List ℚ) ++ V :: rest = V :: rest from rfl] at ha
      simp only [runAmpls, hA] at ha
      simp at ha
  | cons g good ih =>
    intro i hg
    have hA : set_ampl g = .ok [Cmd.slvl g] := by
      rw [set_ampl, if_neg (not_lt.mpr (hg g (List.mem_cons_self g good)))]
    have hrf := runFreqs_ok L g (dev i) freqs 0 fun k => hdev i k
    have hih := ih (i + 1) fun a ha => hg a (List.mem_cons_of_mem _ ha)
    constructor
    · show (runAmpls L dev freqs (g :: (good ++ V :: rest)) i).2 = _
      simp only [runAmpls, hA, hrf, hih.1]
    · intro a ha
      rw [show (g :: good) ++ V :: rest = g :: (good ++ V :: rest) from rfl,
        runAmpls] at ha
      rw [hA] at ha
      simp only [hrf] at ha
      rcases List.mem_append.mp ha with h1 | h2
      · rcases List.mem_append.mp h1 with h0 | hmid
        · have hag : a = g := by
            simpa using h0
          exact hag ▸ hg g (List.mem_cons_self g good)
        · exact absurd hmid (runFreqs_no_slvl L g a (dev i) freqs 0)
      · exact hih.2 a h2

/-- C7 (amended): an out-of-range harmonic, sensitivity or grid amplitude
makes the sweep call fail with an error naming the violated bound, and the
validation precedes the corresponding device command — an invalid harmonic
issues no command at all, an invalid sensitivity fails with only the `HARM`
command issued, and an over-limit amplitude fails on reaching it with no
`SLVL` command above 5 V ever issued — but commands for the settings already
validated (and the points already measured) have been issued by then. -/
theorem sweep_validation_order (harm sens : ℤ) (freqs ampls : List ℚ)
    (dev : ℕ → ℕ → PointSample) (L : ℕ) :
    (¬(1 ≤ harm ∧ harm ≤ 19999) →
      sweep harm sens freqs ampls dev L =
        ([], .error "harmonic must be between 1 and 19999")) ∧
    ((1 ≤ harm ∧ harm ≤ 19999) → ¬(0 ≤ sens ∧ sens ≤ 26) →
      sweep harm sens freqs ampls dev L =
        ([Cmd.harm harm],
         .error "sensitivity setting must be between 0 (1 nV) and 26 (1 V)")) ∧
    ((1 ≤ harm ∧ harm ≤ 19999) → (0 ≤ sens ∧ sens ≤ 26) →
      ∀ good V rest, ampls = good ++ V :: rest →
        (∀ a ∈ good, a ≤ 5) → 5 < V →
        (∀ a b, (dev a b).y.length = (dev a b).x.length) →
        (sweep harm sens freqs ampls dev L).2 =
          .error "can not exceed amplitude of 5V" ∧
        ∀ a, Cmd.slvl a ∈ (sweep harm sens freqs ampls dev L).1 → a ≤ 5) := by
  refine ⟨?_, ?_, ?_⟩
  · intro hbad
    have h1 : set_harm harm = .error "harmonic must be between 1 and 19999" := by
      rw [set_harm, if_neg hbad]
    simp only [sweep, h1]
  · intro hh hbad
    have h1 : set_harm harm = .ok [Cmd.harm harm] := by
      rw [set_harm, if_pos hh]
    have h2 : set_sens sens =
        .error "sensitivity setting must be between 0 (1 nV) and 26 (1 V)" := by
      rw [set_sens, if_neg hbad]
    simp only [sweep, h1, h2]
  · intro hh hs good V rest hampls hg hV hdev
    have h1 : set_harm harm = .ok [Cmd.harm harm] := by
      rw [set_harm, if_pos hh]
    have h2 : set_sens sens = .ok [Cmd.sens sens] := by
      rw [set_sens, if_pos hs]
    subst hampls
    have hbad := runAmpls_bad_ampl L dev freqs hdev V hV rest good 0 hg
    constructor
    · rw [sweep]
      rw [h1, h2]
      exact hbad.1
    · intro a ha
      rw [sweep] at ha
      rw [h1, h2] at ha
      rcases List.mem_append.mp ha with h1m | h2m
      · rcases List.mem_append.mp h1m with h0 | hmid
        · simp at h0
        · simp at hmid
      · exact hbad.2 a h2m

/-- Witness for C7 (amended): the sweep over amplitudes `[1, 6]` with valid
harmonic and sensitivity fails on reaching the over-limit amplitude 6 V. -/
theorem sweep_validation_order_witness :
    (sweep 1 5 [10] [1, 6] devEx 50).2 =
      .error "can not exceed amplitude of 5V" :=
  ((sweep_validation_order 1 5 [10] [1, 6] devEx 50).2.2 (by decide) (by decide)
    [1] 6 [] rfl (by decide) (by norm_num)
    (fun a b => by rw [devEx]; split <;> rfl)).1

end Lockintools
